import Mathlib

/-!
# Verification of the timelapse-video batch job (src/main.py)

Shallow embedding of the time-window calculators, the Drive query/delete
operations and the per-cadence processing pipeline of `src/main.py`.

Conventions of the embedding:

* A point in time is an `Int`, counting seconds of Asia/Hong_Kong local
  wall-clock time since 1970-01-01T00:00:00 local.  Asia/Hong_Kong has a
  fixed UTC+8 offset in the era the program runs in, so converting a local
  timestamp to UTC (`datetime.astimezone(pytz.utc)`) subtracts 28800 seconds.
* Python's `dt.replace(minute=0, second=0, microsecond=0)` on such a local
  timestamp is flooring to a multiple of 3600; `dt.replace(hour=0, ...)` is
  flooring to a multiple of 86400.  `Int.emod`/`Int.ediv` give the
  floor-division semantics of Python for the positive divisors used here.
* `date.weekday()` (Monday = 0) of the day number `d` (days since the epoch,
  which was a Thursday) is `(d + 3) % 7`.
* Remote calls that the Python code guards with `try/except HttpError` are
  modelled through an environment `Env` carrying the Drive folder contents
  and one error flag per guarded call.
-/

/-- The three artifact cadences of the batch job. -/
inductive Cadence where
  | hourly
  | daily
  | weekly
deriving DecidableEq

/-- `IMAGE_THRESHOLDS` (src/main.py lines 24-28). -/
def IMAGE_THRESHOLDS : Cadence → Nat
  | .hourly => 60
  | .daily => 720
  | .weekly => 1440

/-! ## Calendar arithmetic

`strftime('%Y%m%d...')` and `isocalendar()` need the proleptic Gregorian
calendar.  `yearDoyAux`/`monthDoyAux` convert a day number (days since
1970-01-01) to civil year/month/day by scanning years and then months; the
fuel argument makes them structurally recursive (the fuel provably never
runs out, see `yearDoyAux_spec` / `monthDoyAux_spec`). -/

/-- Gregorian leap-year rule. -/
def isLeap (y : Nat) : Bool := (y % 4 == 0 && y % 100 != 0) || y % 400 == 0

def daysInYear (y : Nat) : Nat := if isLeap y then 366 else 365

def daysInMonth (y m : Nat) : Nat :=
  if m = 2 then (if isLeap y then 29 else 28)
  else if m = 4 ∨ m = 6 ∨ m = 9 ∨ m = 11 then 30
  else 31

/-- Scan years starting at `y`, consuming `t` remaining days; returns the
year and the 0-based day-of-year. -/
def yearDoyAux : Nat → Nat → Nat → Nat × Nat
  | 0, y, t => (y, t)
  | fuel + 1, y, t =>
    if t < daysInYear y then (y, t) else yearDoyAux fuel (y + 1) (t - daysInYear y)

/-- Year and 0-based day-of-year of day number `t` (days since 1970-01-01). -/
def yearDoy (t : Nat) : Nat × Nat := yearDoyAux (t + 1) 1970 t

/-- Scan months starting at `m`, consuming the 0-based day-of-year `o`;
returns the month and the 1-based day-of-month. -/
def monthDoyAux : Nat → Nat → Nat → Nat → Nat × Nat
  | 0, _, m, o => (m, o + 1)
  | fuel + 1, y, m, o =>
    if o < daysInMonth y m then (m, o + 1)
    else monthDoyAux fuel y (m + 1) (o - daysInMonth y m)

/-- Month and day of the 0-based day-of-year `o` in year `y`. -/
def monthDoy (y o : Nat) : Nat × Nat := monthDoyAux (o + 1) y 1 o

/-- Civil `(year, month, day)` of day number `t` (days since 1970-01-01). -/
def civilOfDays (t : Nat) : Nat × Nat × Nat :=
  let yo := yearDoy t
  let md := monthDoy yo.1 yo.2
  (yo.1, md.1, md.2)

/-- ISO-8601 `(year, week)` of a day number `t` that is a Monday:
the ISO year/week of a week is that of its Thursday (`t + 3`), and the week
number is the count of Thursdays of that ISO year up to and including it.
This embeds the `end_time.isocalendar()` call of `get_weekly_video_info`
(src/main.py line 120), whose argument is always a Monday. -/
def isoYearWeekOfMonday (t : Nat) : Nat × Nat :=
  let yo := yearDoy (t + 3)
  (yo.1, yo.2 / 7 + 1)

/-! ## Decimal formatting (`strftime` field rendering) -/

/-- Little-endian decimal digits of `n` (`[]` for `0`); fuel-based so that it
reduces in the kernel. -/
def toDigitsAux : Nat → Nat → List Nat
  | 0, _ => []
  | fuel + 1, n => if n = 0 then [] else n % 10 :: toDigitsAux fuel (n / 10)

def toDigitsLE (n : Nat) : List Nat := toDigitsAux n n

/-- Value of a little-endian decimal digit list. -/
def fromDigitsLE : List Nat → Nat
  | [] => 0
  | d :: t => d + 10 * fromDigitsLE t

def digitChar (d : Nat) : Char := Char.ofNat (48 + d)

def charDigit (c : Char) : Nat := c.toNat - 48

/-- Big-endian decimal digit characters of `n` (empty for `0`). -/
def decChars (n : Nat) : List Char := ((toDigitsLE n).map digitChar).reverse

/-- Left-pad a digit string with `'0'` to width `k` (no-op if already wider),
like `%02d`/`%04d`/zero-padded `strftime` fields. -/
def leftPad (k : Nat) (l : List Char) : List Char :=
  List.replicate (k - l.length) '0' ++ l

def pad2 (n : Nat) : List Char := leftPad 2 (decChars n)

def pad4 (n : Nat) : List Char := leftPad 4 (decChars n)

/-- Numeric value of a padded digit string (inverse of `leftPad k ∘ decChars`). -/
def unpadNat (l : List Char) : Nat := fromDigitsLE ((l.map charDigit).reverse)

/-! ## The window calculators (src/main.py lines 101-122) -/

/-- `strftime('%Y%m%d')` of the local timestamp `t` (as characters). -/
def strftimeYmd (t : Int) : List Char :=
  let c := civilOfDays (t / 86400).toNat
  pad4 c.1 ++ pad2 c.2.1 ++ pad2 c.2.2

/-- `strftime('%H')` of the local timestamp `t` (as characters). -/
def strftimeH (t : Int) : List Char :=
  pad2 ((t % 86400).toNat / 3600)

/-- `f"timelapse_hour_{end_time.strftime('%Y%m%d_%H')}.mp4"` (line 105). -/
def hourlyVideoName (e : Int) : String :=
  String.mk ("timelapse_hour_".data ++ strftimeYmd e ++ '_' :: (strftimeH e ++ ".mp4".data))

/-- `f"timelapse_day_{end_time.strftime('%Y%m%d')}.mp4"` (line 112). -/
def dailyVideoName (e : Int) : String :=
  String.mk ("timelapse_day_".data ++ (strftimeYmd e ++ ".mp4".data))

/-- `f"timelapse_week_{year}{week:02d}.mp4"` with
`year, week, _ = end_time.isocalendar()` (lines 120-121). -/
def weeklyVideoName (e : Int) : String :=
  let yw := isoYearWeekOfMonday (e / 86400).toNat
  String.mk ("timelapse_week_".data ++ (pad4 yw.1 ++ (pad2 yw.2 ++ ".mp4".data)))

/-- The `(start_time, end_time, video_name, frame_duration)` tuple returned by
the three `get_*_video_info` functions. -/
structure VideoInfo where
  start_time : Int
  end_time : Int
  video_name : String
  frame_duration : Nat
deriving DecidableEq

/-- `get_hourly_video_info` (src/main.py lines 101-107):
`end_time = now.replace(minute=0, second=0, microsecond=0)`,
`start_time = end_time - timedelta(hours=1)`. -/
def get_hourly_video_info (now : Int) : VideoInfo :=
  let end_time := now - now % 3600
  { start_time := end_time - 3600
    end_time := end_time
    video_name := hourlyVideoName end_time
    frame_duration := 250 }

/-- `get_daily_video_info` (src/main.py lines 109-113):
`end_time = now.replace(hour=0, minute=0, second=0, microsecond=0)`,
`start_time = end_time - timedelta(days=1)`. -/
def get_daily_video_info (now : Int) : VideoInfo :=
  let end_time := now - now % 86400
  { start_time := end_time - 86400
    end_time := end_time
    video_name := dailyVideoName end_time
    frame_duration := 100 }

/-- `get_weekly_video_info` (src/main.py lines 115-122):
`weekday = now.weekday()`, `end_time = (now - timedelta(days=weekday)).replace(hour=0, ...)`,
`start_time = end_time - timedelta(days=7)`. -/
def get_weekly_video_info (now : Int) : VideoInfo :=
  let weekday := (now / 86400 + 3) % 7
  let end_time := (now - weekday * 86400) - (now - weekday * 86400) % 86400
  { start_time := end_time - 7 * 86400
    end_time := end_time
    video_name := weeklyVideoName end_time
    frame_duration := 50 }

/-- Dispatch from a cadence to its window calculator, mirroring the
`video_processors` table of `main` (src/main.py lines 409-413). -/
def get_video_info : Cadence → Int → VideoInfo
  | .hourly => get_hourly_video_info
  | .daily => get_daily_video_info
  | .weekly => get_weekly_video_info

/-! ## The Drive model

A `DriveFile` is the metadata the queries of src/main.py inspect.  Folder
ids are abstract: `image_folder_id` is the source-image folder and
`folderIdOf` gives the per-cadence output folder (all distinct, as
`get_folder_ids` creates distinct folders).

`Env` is the state of the external world during one cadence run: the folder
contents, the server's page size (the `files().list` calls read a single
page, `files` of the first response), and one flag per `try/except`-guarded
remote call saying whether it raises `HttpError` (or, for `encodeOk`,
whether `create_mp4` succeeds). -/

structure DriveFile where
  id : Nat
  parent : Nat
  name : String
  createdTime : Int
  mimeType : String
  trashed : Bool
deriving DecidableEq

def image_folder_id : Nat := 0

def folderIdOf : Cadence → Nat
  | .hourly => 1
  | .daily => 2
  | .weekly => 3

structure Env where
  files : List DriveFile
  pageSize : Nat
  existsErr : Bool
  countErr : Bool
  downloadErr : Bool
  emptyDownload : Nat → Bool
  encodeOk : Bool
  uploadErr : Bool
  deleteVideosErr : Bool
  deleteImagesErr : Bool

/-- The single page of results a `files().list` call sees. -/
def firstPage (env : Env) (l : List DriveFile) : List DriveFile :=
  l.take env.pageSize

/-- Local HKT timestamp converted to UTC, as done by
`astimezone(pytz.utc)` before rendering query timestamps (lines 140-141). -/
def toUtc (t : Int) : Int := t - 28800

/-- Query of `video_exists` (line 126):
`'folder' in parents and name = 'video_name' and trashed = false`. -/
def matchesVideoName (folder : Nat) (video_name : String) (f : DriveFile) : Bool :=
  f.parent == folder && f.name == video_name && !f.trashed

/-- Query of `count_images`/`download_images` (lines 142, 158):
`'folder' in parents and createdTime >= start and createdTime < end and
(mimeType='image/jpeg' or mimeType='image/png' or mimeType='image/jpg')`. -/
def matchesImageQuery (folder : Nat) (s e : Int) (f : DriveFile) : Bool :=
  f.parent == folder && decide (toUtc s ≤ f.createdTime) && decide (f.createdTime < toUtc e) &&
    (f.mimeType == "image/jpeg" || f.mimeType == "image/png" || f.mimeType == "image/jpg")

/-- Query of `delete_videos_in_folder` (line 312):
`'folder' in parents and (mimeType='image/gif' or mimeType='video/mp4') and trashed = false`. -/
def matchesVideoFile (folder : Nat) (f : DriveFile) : Bool :=
  f.parent == folder && (f.mimeType == "image/gif" || f.mimeType == "video/mp4") && !f.trashed

/-- Query of `delete_old_images` (line 330):
`'folder' in parents and createdTime < end` — no MIME and no trashed clause. -/
def matchesOldImage (folder : Nat) (end_time : Int) (f : DriveFile) : Bool :=
  f.parent == folder && decide (f.createdTime < toUtc end_time)

/-- `orderBy="createdTime"` of the `download_images` listing (line 161). -/
def insertByTime (f : DriveFile) : List DriveFile → List DriveFile
  | [] => [f]
  | g :: t => if f.createdTime ≤ g.createdTime then f :: g :: t else g :: insertByTime f t

def orderByCreatedTime : List DriveFile → List DriveFile
  | [] => []
  | f :: t => insertByTime f (orderByCreatedTime t)

/-- `video_exists` (src/main.py lines 124-136): true iff the (first page of
the) name query is non-empty; an `HttpError` is caught and yields `False`. -/
def video_exists (env : Env) (folder : Nat) (video_name : String) : Bool :=
  if env.existsErr then false
  else !(firstPage env (env.files.filter (matchesVideoName folder video_name))).isEmpty

/-- `count_images` (src/main.py lines 138-152): length of the single result
page; an `HttpError` is caught and yields `0`. -/
def count_images (env : Env) (folder : Nat) (start_time end_time : Int) : Nat :=
  if env.countErr then 0
  else (firstPage env (env.files.filter (matchesImageQuery folder start_time end_time))).length

/-- `download_images` (src/main.py lines 154-189): the single result page of
the image query ordered by `createdTime`; files whose downloaded content is
empty are dropped (lines 180-185).  Returns the ids of the kept files; an
`HttpError` is caught and yields `[]`. -/
def download_images (env : Env) (folder : Nat) (start_time end_time : Int) : List Nat :=
  if env.downloadErr then []
  else ((firstPage env (orderByCreatedTime
          (env.files.filter (matchesImageQuery folder start_time end_time)))).filter
        (fun f => !env.emptyDownload f.id)).map (fun f => f.id)

/-- Observable remote side effects of one cadence run. -/
inductive DriveAction where
  | download (id : Nat)
  | encode
  | upload (folder : Nat) (video_name : String)
  | delete (f : DriveFile)
deriving DecidableEq

/-- `delete_videos_in_folder` (src/main.py lines 310-326): deletes every file
of the single result page of the video query; an `HttpError` is caught and
no deletion is issued. -/
def delete_videos_in_folder (env : Env) (folder : Nat) : List DriveAction :=
  if env.deleteVideosErr then []
  else (firstPage env (env.files.filter (matchesVideoFile folder))).map DriveAction.delete

/-- `delete_old_images` (src/main.py lines 327-343): deletes every file of
the single result page of the `createdTime < end` query; an `HttpError` is
caught and no deletion is issued. -/
def delete_old_images (env : Env) (folder : Nat) (end_time : Int) : List DriveAction :=
  if env.deleteImagesErr then []
  else (firstPage env (env.files.filter (matchesOldImage folder end_time))).map DriveAction.delete

/-- The cleanup block of `process_video_type` (src/main.py lines 384-389):
nothing after an hourly build; after a daily build delete the videos of the
hourly folder; after a weekly build delete the videos of the daily folder
and the image-folder files from before the window end. -/
def cleanup_actions (env : Env) (video_type : Cadence) (end_time : Int) : List DriveAction :=
  match video_type with
  | .hourly => []
  | .daily => delete_videos_in_folder env (folderIdOf .hourly)
  | .weekly => delete_videos_in_folder env (folderIdOf .daily) ++
      delete_old_images env image_folder_id end_time

/-- The single result page of the `download_images` listing for a cadence's
window (src/main.py lines 158-166). -/
def listed_images (env : Env) (video_type : Cadence) (now : Int) : List DriveFile :=
  firstPage env (orderByCreatedTime (env.files.filter (matchesImageQuery image_folder_id
    (get_video_info video_type now).start_time (get_video_info video_type now).end_time)))

/-- The body of `process_video_type` from the image download on
(src/main.py lines 367-391): download, encode, upload, then the
cadence-specific cleanup.  Every failure returns `false` (caught by the
enclosing `except`, line 393) and the run's remote side effects so far. -/
def build_phase (env : Env) (video_type : Cadence) (now : Int) : Bool × List DriveAction :=
  let info := get_video_info video_type now
  let folder := folderIdOf video_type
  if env.downloadErr then (false, [])
  else
    let page := listed_images env video_type now
    let fetches := page.map (fun f => DriveAction.download f.id)
    let saved := page.filter (fun f => !env.emptyDownload f.id)
    if saved.isEmpty then (false, fetches)
    else if !env.encodeOk then (false, fetches ++ [DriveAction.encode])
    else if env.uploadErr then (false, fetches ++ [DriveAction.encode, DriveAction.upload folder info.video_name])
    else
      (true, fetches ++ [DriveAction.encode, DriveAction.upload folder info.video_name] ++
        cleanup_actions env video_type info.end_time)

/-- `process_video_type` after the existence check (src/main.py lines
361-365): the image-count threshold gate. -/
def after_exists_check (env : Env) (video_type : Cadence) (now : Int) : Bool × List DriveAction :=
  let info := get_video_info video_type now
  if count_images env image_folder_id info.start_time info.end_time <
      IMAGE_THRESHOLDS video_type then (false, [])
  else build_phase env video_type now

/-- `process_video_type` (src/main.py lines 345-395).  `now` is the
`datetime.now(hkt)` read at line 349.  Returns the `True`/`False` outcome
together with the remote side effects performed. -/
def process_video_type (env : Env) (video_type : Cadence) (now : Int) : Bool × List DriveAction :=
  let info := get_video_info video_type now
  if video_exists env (folderIdOf video_type) info.video_name then (true, [])
  else after_exists_check env video_type now

/-- The fixed cadence order of `video_processors` (src/main.py lines 409-413). -/
def cadenceOrder : List Cadence := [.hourly, .daily, .weekly]

/-- The per-cadence loop of `main` (src/main.py lines 414-418): every cadence
is processed and its success/failure outcome logged; no exception crosses a
cadence boundary (`process_video_type` catches everything).  `envs`/`nows`
give the external world and the clock reading each cadence sees. -/
def mainLoop (envs : Cadence → Env) (nows : Cadence → Int) :
    List (Cadence × Bool × List DriveAction) :=
  cadenceOrder.map (fun c => (c, process_video_type (envs c) c (nows c)))

/-! ## Claims about the window calculators -/

/-- Claim C1: for every `now`, the hourly/daily/weekly `end` is aligned to its
cadence boundary (top of the current hour; midnight of the current day; the
most recent Monday midnight at or before `now` — a day number `d` is a
Monday iff `(d + 3) % 7 = 0`), and `start = end - span` (1h/24h/7d), so
`start < end`. -/
theorem window_alignment_and_span (now : Int) :
    ((get_hourly_video_info now).end_time % 3600 = 0 ∧
      (get_hourly_video_info now).end_time ≤ now ∧
      now < (get_hourly_video_info now).end_time + 3600 ∧
      (get_hourly_video_info now).start_time = (get_hourly_video_info now).end_time - 3600 ∧
      (get_hourly_video_info now).start_time < (get_hourly_video_info now).end_time) ∧
    ((get_daily_video_info now).end_time % 86400 = 0 ∧
      (get_daily_video_info now).end_time ≤ now ∧
      now < (get_daily_video_info now).end_time + 86400 ∧
      (get_daily_video_info now).start_time = (get_daily_video_info now).end_time - 86400 ∧
      (get_daily_video_info now).start_time < (get_daily_video_info now).end_time) ∧
    ((get_weekly_video_info now).end_time % 86400 = 0 ∧
      ((get_weekly_video_info now).end_time / 86400 + 3) % 7 = 0 ∧
      (get_weekly_video_info now).end_time ≤ now ∧
      now < (get_weekly_video_info now).end_time + 7 * 86400 ∧
      (get_weekly_video_info now).start_time = (get_weekly_video_info now).end_time - 7 * 86400 ∧
      (get_weekly_video_info now).start_time < (get_weekly_video_info now).end_time) := by
  refine ⟨⟨?_, ?_, ?_, ?_, ?_⟩, ⟨?_, ?_, ?_, ?_, ?_⟩, ⟨?_, ?_, ?_, ?_, ?_, ?_⟩⟩ <;>
    simp only [get_hourly_video_info, get_daily_video_info, get_weekly_video_info] <;>
    omega

/-! ## Claims about the retention decision -/

/-- Claim C2: when the decision reaches the threshold check (the existence check
came back false), an image count of `threshold - 1` makes the cadence skip —
it returns `False` having performed no remote side effect — while a count
equal to the threshold proceeds into the build phase; the thresholds are
hourly 60, daily 720, weekly 1440. -/
theorem threshold_boundary (env : Env) (c : Cadence) (now : Int)
    (hex : video_exists env (folderIdOf c) (get_video_info c now).video_name = false) :
    (IMAGE_THRESHOLDS .hourly = 60 ∧ IMAGE_THRESHOLDS .daily = 720 ∧
      IMAGE_THRESHOLDS .weekly = 1440) ∧
    (count_images env image_folder_id (get_video_info c now).start_time
        (get_video_info c now).end_time = IMAGE_THRESHOLDS c - 1 →
      process_video_type env c now = (false, [])) ∧
    (count_images env image_folder_id (get_video_info c now).start_time
        (get_video_info c now).end_time = IMAGE_THRESHOLDS c →
      process_video_type env c now = build_phase env c now) := by
  refine ⟨⟨rfl, rfl, rfl⟩, ?_, ?_⟩ <;> intro hcount <;>
    simp only [process_video_type, hex, Bool.false_eq_true, if_false, after_exists_check, hcount]
  · have : IMAGE_THRESHOLDS c - 1 < IMAGE_THRESHOLDS c := by cases c <;> simp [IMAGE_THRESHOLDS]
    simp [this]
  · simp

/-- Claim C5: if the artifact-existence check returns true, the cadence terminates
immediately with outcome `True` and an empty side-effect trace (no fetch,
encode, upload or delete), so re-invoking after a successful build is
side-effect free. -/
theorem exists_skip (env : Env) (c : Cadence) (now : Int)
    (hex : video_exists env (folderIdOf c) (get_video_info c now).video_name = true) :
    process_video_type env c now = (true, []) := by
  simp only [process_video_type, hex, if_true]

/-- Claim C8: an `HttpError` in the existence check is treated as "does not
exist" (`video_exists` returns false and processing proceeds to the
threshold check), and an `HttpError` in the image count is treated as a
count of zero, which makes the cadence skip under every (positive)
threshold; neither failure escapes. -/
theorem degraded_check_defaults (env : Env) (c : Cadence) (now : Int)
    (folder : Nat) (video_name : String) (s e : Int) :
    (env.existsErr = true →
      video_exists env folder video_name = false ∧
      process_video_type env c now = after_exists_check env c now) ∧
    (env.countErr = true →
      count_images env folder s e = 0 ∧
      after_exists_check env c now = (false, [])) := by
  constructor <;> intro h
  · refine ⟨by simp [video_exists, h], ?_⟩
    simp [process_video_type, video_exists, h]
  · refine ⟨by simp [count_images, h], ?_⟩
    have hpos : 0 < IMAGE_THRESHOLDS c := by cases c <;> simp [IMAGE_THRESHOLDS]
    simp only [after_exists_check, count_images, h, if_true]
    simp [hpos]

/-- Which files a cadence's post-build cleanup may delete. -/
def cleanupScope (c : Cadence) (end_time : Int) (f : DriveFile) : Prop :=
  match c with
  | .hourly => False
  | .daily => f.parent = folderIdOf .hourly
  | .weekly => f.parent = folderIdOf .daily ∨
      (f.parent = image_folder_id ∧ f.createdTime < toUtc end_time)

lemma mem_delete_videos_in_folder {env : Env} {folder : Nat} {f : DriveFile}
    (h : DriveAction.delete f ∈ delete_videos_in_folder env folder) :
    matchesVideoFile folder f = true := by
  unfold delete_videos_in_folder at h
  split at h
  · simp at h
  · rcases List.mem_map.1 h with ⟨g, hg, he⟩
    injection he with he'
    subst he'
    exact (List.mem_filter.1 (List.take_subset _ _ hg)).2

lemma mem_delete_old_images {env : Env} {folder : Nat} {e : Int} {f : DriveFile}
    (h : DriveAction.delete f ∈ delete_old_images env folder e) :
    matchesOldImage folder e f = true := by
  unfold delete_old_images at h
  split at h
  · simp at h
  · rcases List.mem_map.1 h with ⟨g, hg, he⟩
    injection he with he'
    subst he'
    exact (List.mem_filter.1 (List.take_subset _ _ hg)).2

lemma mem_cleanup_actions {env : Env} {c : Cadence} {e : Int} {f : DriveFile}
    (h : DriveAction.delete f ∈ cleanup_actions env c e) : cleanupScope c e f := by
  cases c with
  | hourly => simp [cleanup_actions] at h
  | daily =>
    have := mem_delete_videos_in_folder h
    simp only [matchesVideoFile, Bool.and_eq_true, beq_iff_eq] at this
    exact this.1.1
  | weekly =>
    rcases List.mem_append.1 h with h | h
    · have := mem_delete_videos_in_folder h
      simp only [matchesVideoFile, Bool.and_eq_true, beq_iff_eq] at this
      exact Or.inl this.1.1
    · have := mem_delete_old_images h
      simp only [matchesOldImage, Bool.and_eq_true, beq_iff_eq,
        decide_eq_true_eq] at this
      exact Or.inr this

/-- A delete can only come from the success branch's cleanup block. -/
lemma build_phase_delete_mem {env : Env} {c : Cadence} {now : Int} {f : DriveFile}
    (hm : DriveAction.delete f ∈ (build_phase env c now).2) :
    (build_phase env c now).1 = true ∧
      DriveAction.delete f ∈ cleanup_actions env c (get_video_info c now).end_time := by
  by_cases hA : env.downloadErr = true
  · simp [build_phase, hA] at hm
  · by_cases hB : ((listed_images env c now).filter
        (fun f => !env.emptyDownload f.id)).isEmpty = true
    · simp [build_phase, hA, hB] at hm
    · by_cases hC : env.encodeOk = true
      · by_cases hD : env.uploadErr = true
        · simp [build_phase, hA, hB, hC, hD] at hm
        · simp only [build_phase, hA, hB, hC, hD, Bool.not_true, if_false,
            Bool.false_eq_true, List.mem_append, List.mem_map, List.mem_cons,
            List.not_mem_nil, or_false] at hm
          refine ⟨by simp [build_phase, hA, hB, hC, hD], ?_⟩
          rcases hm with (⟨g, _, hg⟩ | hg | hg) | hm
          · cases hg
          · cases hg
          · cases hg
          · exact hm
      · simp [build_phase, hA, hB, hC] at hm

/-- Lifting of `build_phase_delete_mem` to the whole cadence run: any delete
implies the run succeeded and the deleted file is in the cleanup scope. -/
lemma process_delete_mem {env : Env} {c : Cadence} {now : Int} {f : DriveFile}
    (hm : DriveAction.delete f ∈ (process_video_type env c now).2) :
    (process_video_type env c now).1 = true ∧
      cleanupScope c (get_video_info c now).end_time f := by
  by_cases hex : video_exists env (folderIdOf c) (get_video_info c now).video_name = true
  · simp [process_video_type, hex] at hm
  · simp only [process_video_type, hex, Bool.false_eq_true, if_false] at hm ⊢
    by_cases hcnt : count_images env image_folder_id (get_video_info c now).start_time
        (get_video_info c now).end_time < IMAGE_THRESHOLDS c
    · simp [after_exists_check, hcnt] at hm
    · simp only [after_exists_check, hcnt, if_false] at hm ⊢
      have h := build_phase_delete_mem hm
      exact ⟨h.1, mem_cleanup_actions h.2⟩

/-- Claim C3: in an invocation whose cadence run succeeds, every deletion it
issued lies in the cadence's cleanup scope — none for hourly; only the
hourly output folder for daily; only the daily output folder plus
image-folder files with `createdTime` strictly before `window.end` (never a
file at or after it) for weekly. -/
theorem cleanup_scoped (env : Env) (c : Cadence) (now : Int) (f : DriveFile)
    (hs : (process_video_type env c now).1 = true)
    (hm : DriveAction.delete f ∈ (process_video_type env c now).2) :
    cleanupScope c (get_video_info c now).end_time f :=
  (process_delete_mem hm).2

/-- Claim C4: a cadence whose fetch, encode or upload fails terminates with
outcome `False` having performed no deletion, while the orchestrator still
attempts all three cadences in the fixed order hourly, daily, weekly and
records each cadence's success/failure outcome. -/
theorem failure_isolation (envs : Cadence → Env) (nows : Cadence → Int) (c : Cadence)
    (hfail : (process_video_type (envs c) c (nows c)).1 = false) (f : DriveFile) :
    DriveAction.delete f ∉ (process_video_type (envs c) c (nows c)).2 ∧
    (mainLoop envs nows).map Prod.fst = cadenceOrder ∧
    (c, process_video_type (envs c) c (nows c)) ∈ mainLoop envs nows := by
  refine ⟨?_, by simp [mainLoop, cadenceOrder], ?_⟩
  · intro hm
    have := (process_delete_mem hm).1
    rw [hfail] at this
    cases this
  · cases c <;> simp [mainLoop, cadenceOrder]

/-- Claim C9: the post-weekly-build source cleanup deletes every image-folder
file with `createdTime` before `window.end` regardless of MIME type (when
the server returns all matches in one page), while the count/download query
never matches a file whose MIME type is not image/jpeg, image/png or
image/jpg — so non-image files, invisible to the threshold count, are
deleted. -/
theorem weekly_cleanup_ignores_mime (env : Env) (s e : Int) (f : DriveFile)
    (herr : env.deleteImagesErr = false)
    (hpage : (env.files.filter (matchesOldImage image_folder_id e)).length ≤ env.pageSize)
    (hf : f ∈ env.files) (hp : f.parent = image_folder_id)
    (ht : f.createdTime < toUtc e) :
    DriveAction.delete f ∈ delete_old_images env image_folder_id e ∧
    (¬(f.mimeType = "image/jpeg" ∨ f.mimeType = "image/png" ∨ f.mimeType = "image/jpg") →
      matchesImageQuery image_folder_id s e f = false) := by
  constructor
  · have hq : matchesOldImage image_folder_id e f = true := by
      simp [matchesOldImage, hp, ht]
    have hmem : f ∈ env.files.filter (matchesOldImage image_folder_id e) :=
      List.mem_filter.2 ⟨hf, hq⟩
    simp only [delete_old_images, herr, Bool.false_eq_true, if_false, firstPage,
      List.take_of_length_le hpage]
    exact List.mem_map.2 ⟨f, hmem, rfl⟩
  · intro hmime
    simp only [matchesImageQuery, Bool.and_eq_false_iff]
    right
    simp only [Bool.or_eq_false_iff, beq_eq_false_iff_ne]
    push_neg at hmime
    exact ⟨⟨hmime.1, hmime.2.1⟩, hmime.2.2⟩

/-- Claim C10: `count_images` and `download_images` consume only the first
result page: the count equals the first page's length (and undercounts when
more pages exist), and every downloaded file comes from the first page of
the download listing. -/
theorem single_page_consumption (env : Env) (folder : Nat) (s e : Int)
    (hc : env.countErr = false) (hd : env.downloadErr = false) :
    count_images env folder s e
        = ((env.files.filter (matchesImageQuery folder s e)).take env.pageSize).length ∧
    (env.pageSize < (env.files.filter (matchesImageQuery folder s e)).length →
        count_images env folder s e < (env.files.filter (matchesImageQuery folder s e)).length) ∧
    (download_images env folder s e).length ≤
        (firstPage env (orderByCreatedTime (env.files.filter (matchesImageQuery folder s e)))).length ∧
    ∀ i ∈ download_images env folder s e,
      i ∈ (firstPage env (orderByCreatedTime
            (env.files.filter (matchesImageQuery folder s e)))).map (fun f => f.id) := by
  refine ⟨by simp [count_images, hc, firstPage], ?_, ?_, ?_⟩
  · intro hlt
    simp only [count_images, hc, Bool.false_eq_true, if_false, firstPage, List.length_take]
    omega
  · simp only [download_images, hd, Bool.false_eq_true, if_false, List.length_map]
    exact List.length_filter_le _ _
  · intro i hi
    simp only [download_images, hd, Bool.false_eq_true, if_false, List.mem_map] at hi
    rcases hi with ⟨g, hg, rfl⟩
    exact List.mem_map.2 ⟨g, List.mem_of_mem_filter hg, rfl⟩

/-! ## Calendar invariants (towards name injectivity, claim C7) -/

/-- Days in the `n` consecutive years starting at `y`. -/
def sumDaysFrom (y : Nat) : Nat → Nat
  | 0 => 0
  | n + 1 => daysInYear y + sumDaysFrom (y + 1) n

/-- Days in the `n` consecutive months starting at `(y, m)`. -/
def sumMonthsFrom (y m : Nat) : Nat → Nat
  | 0 => 0
  | n + 1 => daysInMonth y m + sumMonthsFrom y (m + 1) n

lemma daysInYear_bounds (y : Nat) : 365 ≤ daysInYear y ∧ daysInYear y ≤ 366 := by
  unfold daysInYear; split <;> omega

lemma daysInMonth_bounds (y m : Nat) : 28 ≤ daysInMonth y m ∧ daysInMonth y m ≤ 31 := by
  unfold daysInMonth
  split
  · split <;> omega
  · split <;> omega

lemma yearDoyAux_spec : ∀ (fuel t y : Nat), t < fuel →
    y ≤ (yearDoyAux fuel y t).1 ∧
    (yearDoyAux fuel y t).2 < daysInYear (yearDoyAux fuel y t).1 ∧
    sumDaysFrom y ((yearDoyAux fuel y t).1 - y) + (yearDoyAux fuel y t).2 = t := by
  intro fuel
  induction fuel with
  | zero => intro t y h; omega
  | succ n ih =>
    intro t y h
    unfold yearDoyAux
    split
    · refine ⟨Nat.le_refl y, by assumption, ?_⟩
      simp [sumDaysFrom]
    · rename_i hge
      have h365 := (daysInYear_bounds y).1
      have hrec := ih (t - daysInYear y) (y + 1) (by omega)
      rcases hrec with ⟨hy, ho, hsum⟩
      refine ⟨by omega, ho, ?_⟩
      have hk : (yearDoyAux n (y + 1) (t - daysInYear y)).1 - y
          = ((yearDoyAux n (y + 1) (t - daysInYear y)).1 - (y + 1)) + 1 := by omega
      rw [hk]
      simp only [sumDaysFrom]
      omega

lemma monthDoyAux_spec : ∀ (fuel o y m : Nat), o < fuel →
    m ≤ (monthDoyAux fuel y m o).1 ∧
    1 ≤ (monthDoyAux fuel y m o).2 ∧
    (monthDoyAux fuel y m o).2 ≤ daysInMonth y (monthDoyAux fuel y m o).1 ∧
    sumMonthsFrom y m ((monthDoyAux fuel y m o).1 - m) + ((monthDoyAux fuel y m o).2 - 1) = o := by
  intro fuel
  induction fuel with
  | zero => intro o y m h; omega
  | succ n ih =>
    intro o y m h
    unfold monthDoyAux
    split
    · rename_i hlt
      refine ⟨Nat.le_refl m, by omega, by simpa using hlt, ?_⟩
      simp [sumMonthsFrom]
    · rename_i hge
      have h28 := (daysInMonth_bounds y m).1
      have hrec := ih (o - daysInMonth y m) y (m + 1) (by omega)
      rcases hrec with ⟨hm, hd1, hd2, hsum⟩
      refine ⟨by omega, hd1, hd2, ?_⟩
      have hk : (monthDoyAux n y (m + 1) (o - daysInMonth y m)).1 - m
          = ((monthDoyAux n y (m + 1) (o - daysInMonth y m)).1 - (m + 1)) + 1 := by omega
      rw [hk]
      simp only [sumMonthsFrom]
      omega

lemma monthDoyAux_fst_le : ∀ (fuel o y m : Nat), o < fuel →
    (monthDoyAux fuel y m o).1 ≤ m + o / 28 := by
  intro fuel
  induction fuel with
  | zero => intro o y m h; omega
  | succ n ih =>
    intro o y m h
    unfold monthDoyAux
    split
    · simp
    · rename_i hge
      have h28 := (daysInMonth_bounds y m).1
      have hrec := ih (o - daysInMonth y m) y (m + 1) (by omega)
      omega

lemma yearDoy_inj {t1 t2 : Nat} (h : yearDoy t1 = yearDoy t2) : t1 = t2 := by
  have s1 := yearDoyAux_spec (t1 + 1) t1 1970 (by omega)
  have s2 := yearDoyAux_spec (t2 + 1) t2 1970 (by omega)
  unfold yearDoy at h
  rw [h] at s1
  omega

lemma monthDoy_inj {y o1 o2 : Nat} (h : monthDoy y o1 = monthDoy y o2) : o1 = o2 := by
  have s1 := monthDoyAux_spec (o1 + 1) o1 y 1 (by omega)
  have s2 := monthDoyAux_spec (o2 + 1) o2 y 1 (by omega)
  unfold monthDoy at h
  rw [h] at s1
  omega

lemma civilOfDays_eq (t : Nat) :
    civilOfDays t = ((yearDoy t).1, (monthDoy (yearDoy t).1 (yearDoy t).2).1,
      (monthDoy (yearDoy t).1 (yearDoy t).2).2) := rfl

lemma isoYearWeekOfMonday_eq (t : Nat) :
    isoYearWeekOfMonday t = ((yearDoy (t + 3)).1, (yearDoy (t + 3)).2 / 7 + 1) := rfl

lemma civilOfDays_inj {t1 t2 : Nat} (h : civilOfDays t1 = civilOfDays t2) : t1 = t2 := by
  rw [civilOfDays_eq, civilOfDays_eq, Prod.mk.injEq, Prod.mk.injEq] at h
  rcases h with ⟨hy, hm, hd⟩
  rw [← hy] at hm hd
  have ho : (yearDoy t1).2 = (yearDoy t2).2 :=
    monthDoy_inj (Prod.ext hm hd)
  exact yearDoy_inj (Prod.ext hy ho)

lemma isoYearWeekOfMonday_inj {d1 d2 : Nat} (h1 : d1 % 7 = 4) (h2 : d2 % 7 = 4)
    (h : isoYearWeekOfMonday d1 = isoYearWeekOfMonday d2) : d1 = d2 := by
  unfold isoYearWeekOfMonday at h
  rw [Prod.ext_iff] at h
  rcases h with ⟨hy, hw⟩
  simp only at hy hw
  have s1 := yearDoyAux_spec (d1 + 3 + 1) (d1 + 3) 1970 (by omega)
  have s2 := yearDoyAux_spec (d2 + 3 + 1) (d2 + 3) 1970 (by omega)
  unfold yearDoy at hy hw
  rw [hy] at s1
  omega

lemma monthDoy_bounds (y o : Nat) (h : o ≤ 365) :
    (monthDoy y o).1 < 100 ∧ (monthDoy y o).2 < 100 := by
  have so := monthDoyAux_spec (o + 1) o y 1 (by omega)
  have sm := monthDoyAux_fst_le (o + 1) o y 1 (by omega)
  have hdm := (daysInMonth_bounds y (monthDoyAux (o + 1) y 1 o).1).2
  unfold monthDoy
  omega

/-- Bounds on the civil fields used by the zero-padded rendering. -/
lemma civil_field_bounds (t : Nat) :
    (civilOfDays t).2.1 < 100 ∧ (civilOfDays t).2.2 < 100 := by
  have sy := yearDoyAux_spec (t + 1) t 1970 (by omega)
  have hle := (daysInYear_bounds (yearDoyAux (t + 1) 1970 t).1).2
  exact monthDoy_bounds (yearDoy t).1 (yearDoy t).2 (by unfold yearDoy; omega)

lemma iso_week_bound (t : Nat) : (isoYearWeekOfMonday t).2 < 100 := by
  rw [isoYearWeekOfMonday_eq]
  have sy := yearDoyAux_spec (t + 3 + 1) (t + 3) 1970 (by omega)
  have hle := (daysInYear_bounds (yearDoyAux (t + 3 + 1) 1970 (t + 3)).1).2
  unfold yearDoy
  omega

/-! ## Decimal rendering round-trips -/

lemma toDigitsAux_lt10 : ∀ (fuel n : Nat), ∀ d ∈ toDigitsAux fuel n, d < 10 := by
  intro fuel
  induction fuel with
  | zero => intro n d hd; simp [toDigitsAux] at hd
  | succ k ih =>
    intro n d hd
    unfold toDigitsAux at hd
    split at hd
    · simp at hd
    · rcases List.mem_cons.1 hd with h | h
      · omega
      · exact ih _ d h

lemma fromDigits_toDigitsAux : ∀ (fuel n : Nat), n ≤ fuel →
    fromDigitsLE (toDigitsAux fuel n) = n := by
  intro fuel
  induction fuel with
  | zero => intro n h; interval_cases n; simp [toDigitsAux, fromDigitsLE]
  | succ k ih =>
    intro n h
    unfold toDigitsAux
    split
    · simp [fromDigitsLE]; omega
    · rename_i hn
      simp only [fromDigitsLE]
      rw [ih (n / 10) (by omega)]
      omega

lemma fromDigits_toDigitsLE (n : Nat) : fromDigitsLE (toDigitsLE n) = n :=
  fromDigits_toDigitsAux n n (Nat.le_refl n)

lemma toDigitsAux_length : ∀ (fuel n k : Nat), n < 10 ^ k →
    (toDigitsAux fuel n).length ≤ k := by
  intro fuel
  induction fuel with
  | zero => intro n k h; simp [toDigitsAux]
  | succ m ih =>
    intro n k h
    unfold toDigitsAux
    split
    · simp
    · rename_i hn
      have hk : k ≠ 0 := by
        intro hk0
        rw [hk0] at h
        simp at h
        omega
      obtain ⟨k', rfl⟩ : ∃ k', k = k' + 1 := ⟨k - 1, by omega⟩
      have : n / 10 < 10 ^ k' := by
        rw [pow_succ] at h
        omega
      simpa using ih (n / 10) k' this

lemma length_decChars_le {n k : Nat} (h : n < 10 ^ k) : (decChars n).length ≤ k := by
  unfold decChars toDigitsLE
  rw [List.length_reverse, List.length_map]
  exact toDigitsAux_length n n k h

lemma length_pad2 {n : Nat} (h : n < 100) : (pad2 n).length = 2 := by
  have := length_decChars_le (k := 2) (by omega : n < 10 ^ 2)
  unfold pad2 leftPad
  rw [List.length_append, List.length_replicate]
  omega

lemma charDigit_digitChar : ∀ d < 10, charDigit (digitChar d) = d := by decide

lemma fromDigitsLE_append (a b : List Nat) :
    fromDigitsLE (a ++ b) = fromDigitsLE a + 10 ^ a.length * fromDigitsLE b := by
  induction a with
  | nil => simp [fromDigitsLE]
  | cons d t ih =>
    rw [List.cons_append]
    simp only [fromDigitsLE]
    rw [ih, List.length_cons, pow_succ]
    ring

lemma fromDigitsLE_replicate_zero (z : Nat) :
    fromDigitsLE (List.replicate z 0) = 0 := by
  induction z with
  | zero => rfl
  | succ k ih => simp [List.replicate_succ, fromDigitsLE, ih]

/-- Reading back a zero-padded decimal rendering recovers the number. -/
lemma unpad_leftPad (k n : Nat) : unpadNat (leftPad k (decChars n)) = n := by
  unfold unpadNat leftPad decChars
  rw [List.map_append, List.map_replicate]
  have h0 : charDigit '0' = 0 := rfl
  rw [h0, List.map_reverse, List.map_map]
  have hid : (toDigitsLE n).map (charDigit ∘ digitChar) = toDigitsLE n := by
    have hall : ∀ d ∈ toDigitsLE n, (charDigit ∘ digitChar) d = id d := by
      intro d hd
      exact charDigit_digitChar d (toDigitsAux_lt10 n n d hd)
    rw [List.map_congr_left hall, List.map_id]
  rw [hid, List.reverse_append, List.reverse_reverse, List.reverse_replicate,
    fromDigitsLE_append, fromDigitsLE_replicate_zero, fromDigits_toDigitsLE]
  ring

/-! ## Artifact-name injectivity -/

lemma pad2_inj {a b : Nat} (h : pad2 a = pad2 b) : a = b := by
  unfold pad2 at h
  have := congrArg unpadNat h
  rwa [unpad_leftPad, unpad_leftPad] at this

lemma pad4_inj {a b : Nat} (h : pad4 a = pad4 b) : a = b := by
  unfold pad4 at h
  have := congrArg unpadNat h
  rwa [unpad_leftPad, unpad_leftPad] at this

lemma split_pad2 {a b : Nat} {r1 r2 : List Char} (ha : a < 100) (hb : b < 100)
    (h : pad2 a ++ r1 = pad2 b ++ r2) : a = b ∧ r1 = r2 := by
  have hl : (pad2 a).length = (pad2 b).length := by rw [length_pad2 ha, length_pad2 hb]
  obtain ⟨h1, h2⟩ := List.append_inj h hl
  exact ⟨pad2_inj h1, h2⟩

lemma split_pad4_left {y1 y2 : Nat} {t1 t2 : List Char}
    (h : pad4 y1 ++ t1 = pad4 y2 ++ t2) (hl : t1.length = t2.length) : y1 = y2 ∧ t1 = t2 := by
  obtain ⟨h1, h2⟩ := List.append_inj' h hl
  exact ⟨pad4_inj h1, h2⟩

lemma hour_field_bound (e : Int) : (e % 86400).toNat / 3600 < 100 := by omega

lemma hourlyVideoName_inj {e1 e2 : Int} (h1 : 0 ≤ e1) (h2 : 0 ≤ e2)
    (a1 : e1 % 3600 = 0) (a2 : e2 % 3600 = 0)
    (h : hourlyVideoName e1 = hourlyVideoName e2) : e1 = e2 := by
  have hdata := congrArg String.data h
  simp only [hourlyVideoName, strftimeYmd, strftimeH, List.append_assoc] at hdata
  have hx := List.append_cancel_left hdata
  have hb1 := civil_field_bounds (e1 / 86400).toNat
  have hb2 := civil_field_bounds (e2 / 86400).toNat
  have hh1 := hour_field_bound e1
  have hh2 := hour_field_bound e2
  obtain ⟨hy, hx⟩ := split_pad4_left hx (by
    simp [List.length_append, length_pad2, hb1.1, hb1.2, hb2.1, hb2.2, hh1, hh2])
  obtain ⟨hm, hx⟩ := split_pad2 hb1.1 hb2.1 hx
  obtain ⟨hd, hx⟩ := split_pad2 hb1.2 hb2.2 hx
  have hx' : strftimeH e1 ++ ".mp4".data = strftimeH e2 ++ ".mp4".data := by
    injection hx
  simp only [strftimeH] at hx'
  obtain ⟨hh, -⟩ := split_pad2 hh1 hh2 hx'
  have hq : (e1 / 86400).toNat = (e2 / 86400).toNat :=
    civilOfDays_inj (Prod.ext hy (Prod.ext hm hd))
  omega

lemma dailyVideoName_inj {e1 e2 : Int} (h1 : 0 ≤ e1) (h2 : 0 ≤ e2)
    (a1 : e1 % 86400 = 0) (a2 : e2 % 86400 = 0)
    (h : dailyVideoName e1 = dailyVideoName e2) : e1 = e2 := by
  have hdata := congrArg String.data h
  simp only [dailyVideoName, strftimeYmd, List.append_assoc] at hdata
  have hx := List.append_cancel_left hdata
  have hb1 := civil_field_bounds (e1 / 86400).toNat
  have hb2 := civil_field_bounds (e2 / 86400).toNat
  obtain ⟨hy, hx⟩ := split_pad4_left hx (by
    simp [List.length_append, length_pad2, hb1.1, hb1.2, hb2.1, hb2.2])
  obtain ⟨hm, hx⟩ := split_pad2 hb1.1 hb2.1 hx
  obtain ⟨hd, -⟩ := split_pad2 hb1.2 hb2.2 hx
  have hq : (e1 / 86400).toNat = (e2 / 86400).toNat :=
    civilOfDays_inj (Prod.ext hy (Prod.ext hm hd))
  omega

lemma weeklyVideoName_inj {e1 e2 : Int} (h1 : 0 ≤ e1) (h2 : 0 ≤ e2)
    (a1 : e1 % 86400 = 0) (a2 : e2 % 86400 = 0)
    (m1 : (e1 / 86400 + 3) % 7 = 0) (m2 : (e2 / 86400 + 3) % 7 = 0)
    (h : weeklyVideoName e1 = weeklyVideoName e2) : e1 = e2 := by
  have hdata := congrArg String.data h
  simp only [weeklyVideoName, isoYearWeekOfMonday_eq, List.append_assoc] at hdata
  have hx := List.append_cancel_left hdata
  have hw1 := iso_week_bound (e1 / 86400).toNat
  have hw2 := iso_week_bound (e2 / 86400).toNat
  rw [isoYearWeekOfMonday_eq] at hw1 hw2
  obtain ⟨hy, hx⟩ := split_pad4_left hx (by
    simp [List.length_append, length_pad2, hw1, hw2])
  obtain ⟨hw, -⟩ := split_pad2 hw1 hw2 hx
  have hq : (e1 / 86400).toNat = (e2 / 86400).toNat := by
    apply isoYearWeekOfMonday_inj (by omega) (by omega)
    rw [isoYearWeekOfMonday_eq, isoYearWeekOfMonday_eq]
    exact Prod.ext hy hw
  omega

lemma hourly_name_eq (now : Int) : (get_hourly_video_info now).video_name
    = hourlyVideoName ((get_hourly_video_info now).end_time) := rfl

lemma daily_name_eq (now : Int) : (get_daily_video_info now).video_name
    = dailyVideoName ((get_daily_video_info now).end_time) := rfl

lemma weekly_name_eq (now : Int) : (get_weekly_video_info now).video_name
    = weeklyVideoName ((get_weekly_video_info now).end_time) := rfl

/-- Claim C7: for each cadence the artifact name depends on nothing but the
window's `end`: equal `end` gives the byte-identical name, distinct `end`
(necessarily differing by at least one cadence unit, since `end` is
boundary-aligned) gives a different name.  Stated for timestamps at least
one week past the epoch of the embedding's time scale, which covers every
reachable `datetime.now` value. -/
theorem name_pure_and_injective (c : Cadence) (now1 now2 : Int)
    (h1 : 604800 ≤ now1) (h2 : 604800 ≤ now2) :
    ((get_video_info c now1).end_time = (get_video_info c now2).end_time ↔
      (get_video_info c now1).video_name = (get_video_info c now2).video_name) := by
  cases c with
  | hourly =>
    simp only [get_video_info]
    rw [hourly_name_eq, hourly_name_eq]
    constructor
    · intro he; rw [he]
    · intro hn
      exact hourlyVideoName_inj
        (by simp only [get_hourly_video_info]; omega)
        (by simp only [get_hourly_video_info]; omega)
        (by simp only [get_hourly_video_info]; omega)
        (by simp only [get_hourly_video_info]; omega) hn
  | daily =>
    simp only [get_video_info]
    rw [daily_name_eq, daily_name_eq]
    constructor
    · intro he; rw [he]
    · intro hn
      exact dailyVideoName_inj
        (by simp only [get_daily_video_info]; omega)
        (by simp only [get_daily_video_info]; omega)
        (by simp only [get_daily_video_info]; omega)
        (by simp only [get_daily_video_info]; omega) hn
  | weekly =>
    simp only [get_video_info]
    rw [weekly_name_eq, weekly_name_eq]
    constructor
    · intro he; rw [he]
    · intro hn
      exact weeklyVideoName_inj
        (by simp only [get_weekly_video_info]; omega)
        (by simp only [get_weekly_video_info]; omega)
        (by simp only [get_weekly_video_info]; omega)
        (by simp only [get_weekly_video_info]; omega)
        (by simp only [get_weekly_video_info]; omega)
        (by simp only [get_weekly_video_info]; omega) hn

/-! ## Concrete scenario and witnesses

`1710431220` is 2024-03-14T15:47:00 in Asia/Hong_Kong local seconds
(day 19796 since the epoch, a Thursday). -/

/-- Claim C6 (counterexample): at `now = 2024-03-14T15:47+08:00` the weekly
artifact name does not carry ISO week 10: the window end 2024-03-11 is the
Monday of ISO week 11, and `isocalendar()` is taken of the end. -/
theorem scenario_weekly_name_ce :
    (get_weekly_video_info 1710431220).video_name ≠ "timelapse_week_202410.mp4" := by decide

/-- Claim C6 (amended): the scenario with the weekly name corrected to ISO week 11. -/
theorem scenario_info :
    get_hourly_video_info 1710431220
      = ⟨1710424800, 1710428400, "timelapse_hour_20240314_15.mp4", 250⟩ ∧
    get_daily_video_info 1710431220
      = ⟨1710288000, 1710374400, "timelapse_day_20240314.mp4", 100⟩ ∧
    get_weekly_video_info 1710431220
      = ⟨1709510400, 1710115200, "timelapse_week_202411.mp4", 50⟩ := by
  refine ⟨?_, ?_, ?_⟩ <;> decide

theorem name_pure_and_injective_witness :
    (get_video_info .hourly 1710431220).video_name
      = (get_video_info .hourly 1710431280).video_name :=
  (name_pure_and_injective .hourly 1710431220 1710431280 (by decide) (by decide)).mp (by decide)

/-- Baseline environment for the concrete witnesses. -/
def wEnvBase : Env :=
  { files := [], pageSize := 100, existsErr := false, countErr := false,
    downloadErr := false, emptyDownload := fun _ => false, encodeOk := true,
    uploadErr := false, deleteVideosErr := false, deleteImagesErr := false }

/-- An image in the hourly window of the scenario. -/
def wImg (i : Nat) : DriveFile :=
  { id := i, parent := 0, name := "img", createdTime := toUtc (1710424800 + i),
    mimeType := "image/jpeg", trashed := false }

def wEnv59 : Env := { wEnvBase with files := (List.range 59).map wImg }

def wEnv60 : Env := { wEnvBase with files := (List.range 60).map wImg }

theorem threshold_boundary_witness :
    process_video_type wEnv59 .hourly 1710431220 = (false, []) ∧
    process_video_type wEnv60 .hourly 1710431220 = build_phase wEnv60 .hourly 1710431220 :=
  ⟨(threshold_boundary wEnv59 .hourly 1710431220 (by decide)).2.1 (by decide),
   (threshold_boundary wEnv60 .hourly 1710431220 (by decide)).2.2 (by decide)⟩

/-- An image in the daily window of the scenario. -/
def wImgDay (i : Nat) : DriveFile :=
  { id := i, parent := 0, name := "img", createdTime := toUtc (1710288000 + i),
    mimeType := "image/jpeg", trashed := false }

/-- A stale hourly artifact present during the daily run. -/
def wOldHourly : DriveFile :=
  { id := 9001, parent := 1, name := "timelapse_hour_20240313_09.mp4",
    createdTime := toUtc 1710288000, mimeType := "video/mp4", trashed := false }

def wEnvDay : Env :=
  { wEnvBase with files := wOldHourly :: (List.range 720).map wImgDay, pageSize := 1000 }

set_option maxRecDepth 40000 in
theorem cleanup_scoped_witness :
    cleanupScope .daily (get_video_info .daily 1710431220).end_time wOldHourly :=
  cleanup_scoped wEnvDay .daily 1710431220 wOldHourly (by decide) (by decide)

def wEnvFetchFail : Env := { wEnv60 with downloadErr := true }

theorem failure_isolation_witness :
    DriveAction.delete (wImg 0) ∉ (process_video_type wEnvFetchFail .hourly 1710431220).2 ∧
    (mainLoop (fun _ => wEnvFetchFail) (fun _ => 1710431220)).map Prod.fst = cadenceOrder ∧
    (Cadence.hourly, process_video_type wEnvFetchFail .hourly 1710431220)
      ∈ mainLoop (fun _ => wEnvFetchFail) (fun _ => 1710431220) :=
  failure_isolation (fun _ => wEnvFetchFail) (fun _ => 1710431220) .hourly (by decide) (wImg 0)

/-- The hourly artifact of the scenario already uploaded. -/
def wExistingVideo : DriveFile :=
  { id := 42, parent := 1, name := "timelapse_hour_20240314_15.mp4",
    createdTime := toUtc 1710428400, mimeType := "video/mp4", trashed := false }

def wEnvExists : Env := { wEnvBase with files := [wExistingVideo] }

theorem exists_skip_witness :
    process_video_type wEnvExists .hourly 1710431220 = (true, []) :=
  exists_skip wEnvExists .hourly 1710431220 (by decide)

def wEnvErr : Env := { wEnvBase with existsErr := true, countErr := true }

theorem degraded_check_defaults_witness :
    (video_exists wEnvErr 1 "timelapse_hour_20240314_15.mp4" = false ∧
      process_video_type wEnvErr .hourly 1710431220
        = after_exists_check wEnvErr .hourly 1710431220) ∧
    (count_images wEnvErr 0 1710424800 1710428400 = 0 ∧
      after_exists_check wEnvErr .hourly 1710431220 = (false, [])) :=
  ⟨(degraded_check_defaults wEnvErr .hourly 1710431220 1
      "timelapse_hour_20240314_15.mp4" 1710424800 1710428400).1 (by decide),
   (degraded_check_defaults wEnvErr .hourly 1710431220 1
      "timelapse_hour_20240314_15.mp4" 1710424800 1710428400).2 (by decide)⟩

/-- A non-image file in the image folder, created before the weekly window end. -/
def wTxtFile : DriveFile :=
  { id := 7, parent := 0, name := "notes.txt", createdTime := toUtc 1709510400,
    mimeType := "text/plain", trashed := false }

def wEnvMime : Env := { wEnvBase with files := [wTxtFile], pageSize := 5 }

theorem weekly_cleanup_ignores_mime_witness :
    DriveAction.delete wTxtFile ∈ delete_old_images wEnvMime image_folder_id 1710115200 ∧
    matchesImageQuery image_folder_id 1709510400 1710115200 wTxtFile = false :=
  ⟨(weekly_cleanup_ignores_mime wEnvMime 1709510400 1710115200 wTxtFile (by decide)
      (by decide) (by decide) (by decide) (by decide)).1,
   (weekly_cleanup_ignores_mime wEnvMime 1709510400 1710115200 wTxtFile (by decide)
      (by decide) (by decide) (by decide) (by decide)).2 (by decide)⟩

def wEnvPages : Env :=
  { wEnvBase with files := [wImg 0, wImg 1, wImg 2], pageSize := 2 }

theorem single_page_consumption_witness :
    count_images wEnvPages 0 1710424800 1710428400
        = ((wEnvPages.files.filter
            (matchesImageQuery 0 1710424800 1710428400)).take wEnvPages.pageSize).length ∧
    count_images wEnvPages 0 1710424800 1710428400 <
        (wEnvPages.files.filter (matchesImageQuery 0 1710424800 1710428400)).length ∧
    (download_images wEnvPages 0 1710424800 1710428400).length ≤
        (firstPage wEnvPages (orderByCreatedTime
          (wEnvPages.files.filter (matchesImageQuery 0 1710424800 1710428400)))).length ∧
    0 ∈ (firstPage wEnvPages (orderByCreatedTime
          (wEnvPages.files.filter
            (matchesImageQuery 0 1710424800 1710428400)))).map (fun f => f.id) :=
  ⟨(single_page_consumption wEnvPages 0 1710424800 1710428400 (by decide) (by decide)).1,
   (single_page_consumption wEnvPages 0 1710424800 1710428400
      (by decide) (by decide)).2.1 (by decide),
   (single_page_consumption wEnvPages 0 1710424800 1710428400 (by decide) (by decide)).2.2.1,
   (single_page_consumption wEnvPages 0 1710424800 1710428400
      (by decide) (by decide)).2.2.2 0 (by decide)⟩
